import Mathlib

/-!
Verification of the mention normalization/enrichment pipeline of the
mention-mind repository: `src/api/mention_processor.py` (MentionProcessor)
and the upstream normalizer `import_real_mentions.py` (sanitize_text).

Python dicts are modelled as association lists with in-place update,
Python strings as Lean `String` (character lists); the regular expressions
`#(\w+)`, `@(\w+)` and the URL pattern are modelled over the ASCII range,
matching the data the processor handles.
-/

deriving instance DecidableEq for Except

namespace MentionMind

/-- A value stored in a mention record: the processor only ever stores
strings and lists of strings. -/
inductive Val where
  | s (v : String)
  | l (v : List String)
deriving DecidableEq, Repr

/-- A Python dict with string keys, as an association list with unique keys
kept by in-place update. -/
abbrev Dict := List (String × Val)

/-- Dict lookup (`d[k]` / `k in d`): first binding of the key. -/
def dget (d : Dict) (k : String) : Option Val :=
  match d with
  | [] => none
  | (k', v) :: rest => if k' = k then some v else dget rest k

/-- Dict assignment `d[k] = v`: replace the first binding in place,
append when the key is absent (Python insertion order). -/
def dset (d : Dict) (k : String) (v : Val) : Dict :=
  match d with
  | [] => [(k, v)]
  | (k', v') :: rest => if k' = k then (k', v) :: rest else (k', v') :: dset rest k v

/-- Python `k in d`. -/
def dmem (d : Dict) (k : String) : Bool :=
  (dget d k).isSome

theorem dget_dset_same (d : Dict) (k : String) (v : Val) :
    dget (dset d k v) k = some v := by
  induction d with
  | nil => simp [dget, dset]
  | cons hd tl ih =>
    obtain ⟨k', v'⟩ := hd
    by_cases h : k' = k <;> simp [dget, dset, h, ih]

theorem dget_dset_ne (d : Dict) (k k' : String) (v : Val) (h : k ≠ k') :
    dget (dset d k v) k' = dget d k' := by
  induction d with
  | nil => simp [dget, dset, h]
  | cons hd tl ih =>
    obtain ⟨k₀, v₀⟩ := hd
    by_cases h₀ : k₀ = k
    · subst h₀; simp [dget, dset, h]
    · simp [dget, dset, h₀, ih]

/-- ASCII whitespace recognized by Python `str.split()` (the model covers
the ASCII range; the text fields of this repository are ASCII after sanitizing). -/
def pyIsSpace (c : Char) : Bool :=
  c = ' ' || c = '\t' || c = '\n' || c = '\r' || c = '\x0b' || c = '\x0c'

/-- Python `str.split()` on a character list: maximal runs of
non-whitespace characters, whitespace runs discarded. -/
def words : List Char → List (List Char)
  | [] => []
  | c :: cs =>
    if pyIsSpace c then words cs
    else (c :: cs.takeWhile (fun x => !pyIsSpace x)) ::
      words (cs.dropWhile (fun x => !pyIsSpace x))
termination_by l => l.length
decreasing_by
  · simp
  · have := (List.dropWhile_suffix (l := cs) (fun x => !pyIsSpace x)).sublist.length_le
    simp; omega

/-- Python `" ".join` on character lists. -/
def joinWords : List (List Char) → List Char
  | [] => []
  | [w] => w
  | w :: ws => w ++ ' ' :: joinWords ws

/-- Model of `MentionProcessor._clean_text`: `" ".join(text.split())`. -/
def clean_text (text : String) : String :=
  ⟨joinWords (words text.data)⟩

/-- A word character of the regexes `#(\w+)` / `@(\w+)` (model of `\w`
over the ASCII range: letters, digits, underscore). -/
def isWordChar (c : Char) : Bool :=
  c.isAlphanum || c = '_'

/-- Model of `re.findall` for the pattern `marker(\w+)`: scan left to right; at a
marker followed by at least one word character, capture the maximal word
run (without the marker) and resume after it. -/
def findTokens (marker : Char) : List Char → List String
  | [] => []
  | c :: rest =>
    if c = marker ∧ (rest.takeWhile isWordChar) ≠ [] then
      ⟨rest.takeWhile isWordChar⟩ :: findTokens marker (rest.drop (rest.takeWhile isWordChar).length)
    else
      findTokens marker rest
termination_by l => l.length
decreasing_by
  · simp; omega
  · simp

/-- Model of `MentionProcessor._extract_hashtags`: `re.findall(r"#(\w+)", text)`. -/
def extract_hashtags (text : String) : List String :=
  findTokens '#' text.data

/-- Model of `MentionProcessor._extract_mentions`: `re.findall(r"@(\w+)", text)`. -/
def extract_mentions (text : String) : List String :=
  findTokens '@' text.data

/-- A character of the class in the URL pattern
`[a-zA-Z]|[0-9]|[$-_@.&+]|[!*(),]|%[0-9a-fA-F][0-9a-fA-F]`: since `@.&+%*(),`
all lie in the range `$`..`_`, the class is `!`, the range 0x24..0x5F,
and the lowercase letters. -/
def urlAllowedChar (c : Char) : Bool :=
  ('a' ≤ c && c ≤ 'z') || ('$' ≤ c && c ≤ '_') || c = '!'

/-- Model of `re.match` of the compiled pattern `http[s]?://(...)+` against `url`:
a literal `http://` or `https://` at the start, followed by at least one
character of the class (`match` anchors only at the start). -/
def urlPatternMatch (url : String) : Bool :=
  if url.data.take 8 = "https://".data then
    match url.data.drop 8 with
    | [] => false
    | c :: _ => urlAllowedChar c
  else if url.data.take 7 = "http://".data then
    match url.data.drop 7 with
    | [] => false
    | c :: _ => urlAllowedChar c
  else false

/-- Model of the `urllib.parse` step that removes the unsafe bytes tab, CR and LF from the URL
before splitting it. -/
def urlStripUnsafe (cs : List Char) : List Char :=
  cs.filter (fun c => !(c = '\t' || c = '\r' || c = '\n'))

/-- Characters ending the netloc of an absolute URL in `urlsplit`. -/
def netlocEnd (c : Char) : Bool :=
  c = '/' || c = '?' || c = '#'

/-- Model of `urlparse(url).scheme` for a URL that matched the pattern:
the literal scheme before `://`. -/
def urlparse_scheme (url : String) : String :=
  if url.data.take 8 = "https://".data then "https" else "http"

/-- The part of the URL after `scheme://`, with unsafe bytes removed. -/
def urlAfterScheme (url : String) : List Char :=
  if url.data.take 8 = "https://".data then urlStripUnsafe (url.data.drop 8)
  else urlStripUnsafe (url.data.drop 7)

/-- Model of `urlparse(url).netloc` for a URL that matched the pattern: everything
after `//` up to the first `/`, `?` or `#`. -/
def urlparse_netloc (url : String) : String :=
  ⟨(urlAfterScheme url).takeWhile (fun c => !netlocEnd c)⟩

/-- Raw path as in `urlsplit`, for a URL that matched the pattern: from the end of
the netloc up to the first `?` (query) or `#` (fragment), before
parameters are split off. -/
def urlRawPath (url : String) : List Char :=
  ((urlAfterScheme url).dropWhile (fun c => !netlocEnd c)).takeWhile
    (fun c => !(c = '?' || c = '#'))

/-- Model of `urllib.parse._splitparams`: drop `;params` from the last `/`-segment
of the path (`urlparse(url).path` is the part before the `;`). -/
def splitParamsPath (p : List Char) : List Char :=
  if '/' ∈ p then
    let lastSeg := (p.reverse.takeWhile (fun c => c ≠ '/')).reverse
    p.take (p.length - lastSeg.length) ++ lastSeg.takeWhile (fun c => c ≠ ';')
  else
    p.takeWhile (fun c => c ≠ ';')

/-- Model of `urlparse(url).path` for a URL that matched the pattern. -/
def urlparse_path (url : String) : String :=
  ⟨splitParamsPath (urlRawPath url)⟩

/-- Model of `MentionProcessor._clean_url`: raise `ValidationError("Invalid URL format")`
unless the pattern matches at the start; otherwise rebuild
`f"{parsed.scheme}://{parsed.netloc}{parsed.path}"`. -/
def clean_url (url : String) : Except String String :=
  if urlPatternMatch url then
    .ok (urlparse_scheme url ++ "://" ++ urlparse_netloc url ++ urlparse_path url)
  else
    .error "Invalid URL format"

/-- Value of an ASCII digit (`int` on a digit character; the model of the
stdlib date parser reads ASCII digits). -/
def digitVal (c : Char) : Option Nat :=
  if '0' ≤ c ∧ c ≤ '9' then some (c.toNat - 48) else none

/-- Two-digit number at the front of the input. -/
def parse2 : List Char → Option (Nat × List Char)
  | a :: b :: rest =>
    match digitVal a, digitVal b with
    | some x, some y => some (10 * x + y, rest)
    | _, _ => none
  | _ => none

/-- Four-digit number at the front of the input. -/
def parse4 : List Char → Option (Nat × List Char)
  | a :: b :: c :: d :: rest =>
    match digitVal a, digitVal b, digitVal c, digitVal d with
    | some w, some x, some y, some z => some (1000 * w + 100 * x + 10 * y + z, rest)
    | _, _, _, _ => none
  | _ => none

/-- Consume one expected character. -/
def expectChar (c : Char) : List Char → Option (List Char)
  | x :: rest => if x = c then some rest else none
  | [] => none

/-- Gregorian leap year (`calendar.isleap`). -/
def isLeapYear (y : Nat) : Bool :=
  (y % 4 = 0 && y % 100 ≠ 0) || y % 400 = 0

/-- Days in a month, as used by the date validation of `datetime`. -/
def daysInMonth (y m : Nat) : Nat :=
  if m = 2 then (if isLeapYear y then 29 else 28)
  else if m = 4 || m = 6 || m = 9 || m = 11 then 30
  else 31

/-- Date in the form `YYYY-MM-DD` at the front of the input. -/
def parseIsoDate (cs : List Char) : Option (Nat × Nat × Nat × List Char) := do
  let (y, cs1) ← parse4 cs
  let cs2 ← expectChar '-' cs1
  let (m, cs3) ← parse2 cs2
  let cs4 ← expectChar '-' cs3
  let (d, cs5) ← parse2 cs4
  pure (y, m, d, cs5)

/-- Date range checks of `datetime`: year from 1, month 1..12, day within
the month. -/
def dateOk (y m d : Nat) : Bool :=
  1 ≤ y && 1 ≤ m && m ≤ 12 && 1 ≤ d && d ≤ daysInMonth y m

/-- All-digit number (fraction field). -/
def parseDigits (cs : List Char) : Option Nat :=
  cs.foldl (fun acc c => do
    let a ← acc
    let d ← digitVal c
    pure (a * 10 + d)) (some 0)

/-- Model of `datetime._parse_hh_mm_ss_ff`: `HH`, `HH:MM`, `HH:MM:SS`,
`HH:MM:SS.fff` or `HH:MM:SS.ffffff`, consuming the whole input; yields
(hour, minute, second, microsecond). -/
def parseHMSF (cs : List Char) : Option (Nat × Nat × Nat × Nat) :=
  match parse2 cs with
  | none => none
  | some (h, rest) =>
    match rest with
    | [] => some (h, 0, 0, 0)
    | c :: rest1 =>
      if c ≠ ':' then none
      else match parse2 rest1 with
        | none => none
        | some (m, rest2) =>
          match rest2 with
          | [] => some (h, m, 0, 0)
          | c2 :: rest3 =>
            if c2 ≠ ':' then none
            else match parse2 rest3 with
              | none => none
              | some (s, rest4) =>
                match rest4 with
                | [] => some (h, m, s, 0)
                | c3 :: frac =>
                  if c3 ≠ '.' then none
                  else if frac.length = 3 then
                    (parseDigits frac).map (fun f => (h, m, s, f * 1000))
                  else if frac.length = 6 then
                    (parseDigits frac).map (fun f => (h, m, s, f))
                  else none

/-- Offset detection of `datetime._parse_isoformat_time`: split at the
first `-` when present, else at the first `+`; yields the time part and
the offset part. -/
def tzSplit (cs : List Char) : Option (List Char × List Char) :=
  if '-' ∈ cs then
    some (cs.takeWhile (· ≠ '-'), ((cs.dropWhile (· ≠ '-')).drop 1))
  else if '+' ∈ cs then
    some (cs.takeWhile (· ≠ '+'), ((cs.dropWhile (· ≠ '+')).drop 1))
  else none

/-- Model of `datetime._parse_isoformat_time`: a time of day, optionally followed by
a UTC offset of length 5 (`HH:MM`), 8 (`HH:MM:SS`) or 15
(`HH:MM:SS.ffffff`); the offset must stay strictly below 24 hours
(the range check of `timezone`). -/
def isoTimeOk (tstr : List Char) : Bool :=
  if tstr.length < 2 then false
  else
    match tzSplit tstr with
    | none =>
      match parseHMSF tstr with
      | none => false
      | some (h, m, s, _) => h ≤ 23 && m ≤ 59 && s ≤ 59
    | some (timestr, tzstr) =>
      match parseHMSF timestr with
      | none => false
      | some (h, m, s, _) =>
        (h ≤ 23 && m ≤ 59 && s ≤ 59) &&
        (tzstr.length = 5 || tzstr.length = 8 || tzstr.length = 15) &&
        (match parseHMSF tzstr with
         | none => false
         | some (th, tm, ts, tf) =>
           (th * 3600 + tm * 60 + ts) * 1000000 + tf < 24 * 3600 * 1000000)

/-- Model of `datetime.fromisoformat` (the CPython pre-3.11 grammar): ten-character
`YYYY-MM-DD`, optionally followed by any single separator character and a
time string (an eleven-character input keeps only the date). -/
def pyFromIsoformatOk (s : String) : Bool :=
  match parseIsoDate (s.data.take 10) with
  | none => false
  | some (y, m, d, _) =>
    dateOk y m d && (s.data.length ≤ 11 || isoTimeOk (s.data.drop 11))

/-- Model of `date.replace("Z", "+00:00")`: every occurrence of the one-character
needle is replaced. -/
def pyReplaceZ (s : String) : String :=
  ⟨(s.data.map (fun c => if c = 'Z' then "+00:00".data else [c])).flatten⟩

/-- Model of `MentionProcessor._validate_date`: parse the `Z`-normalized string with
`fromisoformat`; on success return the original string, on failure raise
`ValidationError("Invalid date format")`. -/
def validate_date (date : String) : Except String String :=
  if pyFromIsoformatOk (pyReplaceZ date) then .ok date
  else .error "Invalid date format"

/-- Model of `sanitize_text` from `import_real_mentions.py`: falsy (empty) text
becomes `""`; otherwise the ascii encode with errors replace, then decode,
turns every codepoint above 127 into `'?'` and keeps ASCII codepoints
(printable or not) unchanged. -/
def sanitize_text (text : String) : String :=
  if text = "" then ""
  else ⟨text.data.map (fun c => if c.toNat ≤ 127 then c else '?')⟩

/-- Python `" ".join` on strings. -/
def joinStrings : List String → String
  | [] => ""
  | [x] => x
  | x :: xs => x ++ " " ++ joinStrings xs

/-- Model of `MentionProcessor._generate_search_text`:
`" ".join([text.lower(), author.lower(), " ".join(hashtags), " ".join(mentioned_users)])`,
applied to the record's (already cleaned) text, author, and extracted
token lists. -/
def generate_search_text (text author : String) (hashtags users : List String) : String :=
  joinStrings [text.toLower, author.toLower, joinStrings hashtags, joinStrings users]

/-- String `a` occurs as a contiguous substring of `b`. -/
def strSubstr (a b : String) : Prop :=
  ∃ l r, b.data = l ++ a.data ++ r

/-- The fixed field list checked by `process_mention`. -/
def requiredFields : List String :=
  ["text", "source", "url", "author", "date", "status"]

/-- An error raised by the processor: a `ValidationError` carrying its
message, or a Python-level type error (a required value that is not a
string, which would fault before any `ValidationError`). -/
inductive PErr where
  | validation (msg : String)
  | typeError
deriving DecidableEq, Repr

/-- Model of `MentionProcessor.process_mention`, which mutates its argument dict in
place: the result is the final state of the dict together with the raised
error, if any. Reads of fields the source just assigned (`mention["text"]`
after line 57, `mention["hashtags"]`/`["mentioned_users"]` in
`_generate_search_text`) are inlined to the assigned values; `now` is the
ambient `datetime.now(pytz.UTC).isoformat()` stamp. -/
def process_mention (now : String) (mention : Dict) : Dict × Option PErr :=
  match requiredFields.find? (fun f => !dmem mention f) with
  | some f => (mention, some (.validation ("Missing required field: " ++ f)))
  | none =>
    match dget mention "text" with
    | some (.s t) =>
      let m1 := dset mention "text" (.s (clean_text t))
      match dget m1 "url" with
      | some (.s u) =>
        match clean_url u with
        | .error e => (m1, some (.validation e))
        | .ok u2 =>
          let m2 := dset m1 "url" (.s u2)
          match dget m2 "date" with
          | some (.s dt) =>
            match validate_date dt with
            | .error e => (m2, some (.validation e))
            | .ok dt2 =>
              let m3 := dset m2 "date" (.s dt2)
              let hs := extract_hashtags (clean_text t)
              let us := extract_mentions (clean_text t)
              let m4 := dset m3 "hashtags" (.l hs)
              let m5 := dset m4 "mentioned_users" (.l us)
              match dget m5 "author" with
              | some (.s au) =>
                let st := generate_search_text (clean_text t) au hs us
                let m6 := dset m5 "search_text" (.s st)
                let m7 := dset m6 "processed_at" (.s now)
                let m8 := dset m7 "sentiment" (.s "neutral")
                let m9 := dset m8 "language" (.s "unknown")
                (m9, none)
              | _ => (m5, some .typeError)
          | _ => (m2, some .typeError)
      | _ => (m1, some .typeError)
    | _ => (mention, some .typeError)

theorem takeWhile_append_eq {α : Type} (p : α → Bool) (xs : List α)
    (h : ∀ x ∈ xs, p x = true) (y : α) (hy : p y = false) (ys : List α) :
    (xs ++ y :: ys).takeWhile p = xs ∧ (xs ++ y :: ys).dropWhile p = y :: ys := by
  induction xs with
  | nil =>
    simp [List.takeWhile_cons, List.dropWhile_cons, hy]
  | cons a as ih =>
    have ha : p a = true := h a (by simp)
    have ih' := ih (fun x hx => h x (by simp [hx]))
    simp [List.takeWhile_cons, List.dropWhile_cons, ha, ih'.1, ih'.2]

theorem takeWhile_all_eq {α : Type} (p : α → Bool) (l : List α)
    (h : ∀ x ∈ l, p x = true) :
    l.takeWhile p = l ∧ l.dropWhile p = [] := by
  induction l with
  | nil => simp
  | cons a as ih =>
    have ha : p a = true := h a (by simp)
    have ih' := ih (fun x hx => h x (by simp [hx]))
    simp [List.takeWhile_cons, List.dropWhile_cons, ha, ih'.1, ih'.2]

/-- Every word produced by `words` is nonempty and free of whitespace. -/
theorem words_sound (l : List Char) :
    ∀ w ∈ words l, w ≠ [] ∧ ∀ c ∈ w, pyIsSpace c = false := by
  induction l using words.induct with
  | case1 => simp [words]
  | case2 c cs h ih =>
    rw [words, if_pos h]
    exact ih
  | case3 c cs h ih =>
    rw [words, if_neg h]
    intro w hw
    rcases List.mem_cons.mp hw with rfl | hw
    · refine ⟨by simp, ?_⟩
      intro x hx
      rcases List.mem_cons.mp hx with rfl | hx
      · simpa using h
      · simpa using List.mem_takeWhile_imp hx
    · exact ih w hw

/-- Splitting a single nonempty whitespace-free word yields just it. -/
theorem words_single (w : List Char) (hne : w ≠ [])
    (hfree : ∀ c ∈ w, pyIsSpace c = false) : words w = [w] := by
  cases w with
  | nil => exact absurd rfl hne
  | cons c cs =>
    have hc : pyIsSpace c = false := hfree c (by simp)
    have hall : ∀ x ∈ cs, (fun x => !pyIsSpace x) x = true := by
      intro x hx; simp [hfree x (by simp [hx])]
    have h := takeWhile_all_eq (fun x => !pyIsSpace x) cs hall
    rw [words, if_neg (by simp [hc]), h.1, h.2]
    simp [words]

/-- Splitting peels one whitespace-free word off the front. -/
theorem words_word_cons (w : List Char) (hne : w ≠ [])
    (hfree : ∀ c ∈ w, pyIsSpace c = false) (rest : List Char) :
    words (w ++ ' ' :: rest) = w :: words rest := by
  cases w with
  | nil => exact absurd rfl hne
  | cons c cs =>
    have hc : pyIsSpace c = false := hfree c (by simp)
    have hall : ∀ x ∈ cs, (fun x => !pyIsSpace x) x = true := by
      intro x hx; simp [hfree x (by simp [hx])]
    have h := takeWhile_append_eq (fun x => !pyIsSpace x) cs hall ' '
      (by simp [pyIsSpace]) rest
    rw [List.cons_append, words, if_neg (by simp [hc]), h.1, h.2]
    rw [words, if_pos (by simp [pyIsSpace])]

theorem joinWords_single (w : List Char) : joinWords [w] = w := rfl

theorem joinWords_cons₂ (w w' : List Char) (ws : List (List Char)) :
    joinWords (w :: w' :: ws) = w ++ ' ' :: joinWords (w' :: ws) := rfl

/-- Splitting the space-join of nonempty whitespace-free words returns
exactly those words. -/
theorem words_joinWords (ws : List (List Char))
    (h : ∀ w ∈ ws, w ≠ [] ∧ ∀ c ∈ w, pyIsSpace c = false) :
    words (joinWords ws) = ws := by
  induction ws with
  | nil => simp [joinWords, words]
  | cons w ws ih =>
    cases ws with
    | nil =>
      have hw := h w (by simp)
      rw [joinWords_single, words_single w hw.1 hw.2]
    | cons w' ws' =>
      have hw := h w (by simp)
      rw [joinWords_cons₂, words_word_cons w hw.1 hw.2]
      rw [ih (fun x hx => h x (by simp [List.mem_cons.mpr (Or.inr hx)]))]

/-- C10: `clean_text` splits on whitespace runs and rejoins with single
spaces, and is idempotent: `clean_text (clean_text s) = clean_text s` for
every string. -/
theorem clean_text_idempotent (s : String) :
    clean_text (clean_text s) = clean_text s := by
  show (⟨joinWords (words (String.data ⟨joinWords (words s.data)⟩))⟩ : String) =
    ⟨joinWords (words s.data)⟩
  rw [show (String.data ⟨joinWords (words s.data)⟩) = joinWords (words s.data) from rfl]
  rw [words_joinWords (words s.data) (words_sound s.data)]

/-- C5 counterexample: `sanitize_text` passes the ASCII control character
`\n` through unchanged, so its output is not restricted to printable
ASCII and characters outside the printable range are not all replaced. -/
theorem sanitize_text_keeps_control_chars :
    sanitize_text "a\nb" = "a\nb" ∧
    ¬ (∀ c ∈ (sanitize_text "a\nb").data, 32 ≤ c.toNat ∧ c.toNat ≤ 126) := by
  constructor
  · decide
  · decide

/-- C5 (amended): `sanitize_text` is total, length-preserving, and
replaces exactly the characters outside the ASCII range (codepoint > 127)
with `'?'`; ASCII characters, printable or not, pass through unchanged,
so the output is all-ASCII but not necessarily printable. -/
theorem sanitize_text_ascii_replacement (s : String) :
    (sanitize_text s).length = s.length ∧
    List.Forall₂
      (fun a b => b.toNat ≤ 127 ∧ (a.toNat ≤ 127 → b = a) ∧ (127 < a.toNat → b = '?'))
      s.data (sanitize_text s).data := by
  by_cases hs : s = ""
  · subst hs
    exact ⟨rfl, by constructor⟩
  · unfold sanitize_text
    rw [if_neg hs]
    constructor
    · show (s.data.map _).length = s.data.length
      rw [List.length_map]
    · show List.Forall₂ _ s.data (s.data.map _)
      induction s.data with
      | nil => constructor
      | cons c cs ih =>
        rw [List.map_cons]
        refine List.Forall₂.cons ?_ ih
        by_cases h : c.toNat ≤ 127
        · rw [if_pos h]
          exact ⟨h, fun _ => rfl, fun hlt => absurd h (by omega)⟩
        · rw [if_neg h]
          exact ⟨by decide, fun hle => absurd hle h, fun _ => rfl⟩

/-- C2: `clean_url` does not default a missing scheme to https; on
`"example.com/page"` it raises `ValidationError("Invalid URL format")`
(the repository's own test expects `"https://example.com/page"`). -/
theorem clean_url_rejects_schemeless :
    clean_url "example.com/page" = .error "Invalid URL format" := by
  decide

/-- C6 counterexample: the URL pattern's character class contains `/`, so
`"http:///path"` matches with an empty authority and is accepted, not
rejected: an accepted URL need not have a non-empty authority. -/
theorem clean_url_accepts_empty_authority :
    clean_url "http:///path" = .ok "http:///path" ∧
    urlparse_netloc "http:///path" = "" := by
  constructor
  · decide
  · decide

/-- C1: `process_mention` never produces a `mention_type` field: on a
fully valid record with source `"twitter"` it succeeds, yet the output has
no `mention_type` key (the repository's tests assert
`result["mention_type"] == "tweet"`). -/
theorem process_mention_no_mention_type :
    (process_mention "2024-01-01T00:00:00+00:00"
      [("id", .s "1"), ("text", .s "Tweet"),
       ("date", .s "2024-01-01T12:00:00Z"), ("source", .s "twitter"),
       ("url", .s "https://twitter.com/user/status/123"), ("author", .s "janedoe"),
       ("status", .s "new")]).2 = none ∧
    dget (process_mention "2024-01-01T00:00:00+00:00"
      [("id", .s "1"), ("text", .s "Tweet"),
       ("date", .s "2024-01-01T12:00:00Z"), ("source", .s "twitter"),
       ("url", .s "https://twitter.com/user/status/123"), ("author", .s "janedoe"),
       ("status", .s "new")]).1 "mention_type" = none := by
  constructor
  · decide
  · decide

/-- C3 counterexample: `process_mention` mutates its input in place, so a
record whose URL fails validation is left with its `text` already
whitespace-collapsed — the input record's state is not left unchanged on
a validation failure. -/
theorem process_mention_mutates_on_failure :
    (process_mention "T"
      [("text", .s "a  b"), ("source", .s "s"), ("url", .s "nope"),
       ("author", .s "x"), ("date", .s "2024-01-01"), ("status", .s "new")]).2 =
      some (.validation "Invalid URL format") ∧
    (process_mention "T"
      [("text", .s "a  b"), ("source", .s "s"), ("url", .s "nope"),
       ("author", .s "x"), ("date", .s "2024-01-01"), ("status", .s "new")]).1 ≠
      [("text", .s "a  b"), ("source", .s "s"), ("url", .s "nope"),
       ("author", .s "x"), ("date", .s "2024-01-01"), ("status", .s "new")] := by
  have hct : clean_text "a  b" = "a b" := by
    simp [clean_text, words, pyIsSpace, joinWords]
  have hev : process_mention "T"
      [("text", .s "a  b"), ("source", .s "s"), ("url", .s "nope"),
       ("author", .s "x"), ("date", .s "2024-01-01"), ("status", .s "new")] =
      ([("text", .s "a b"), ("source", .s "s"), ("url", .s "nope"),
        ("author", .s "x"), ("date", .s "2024-01-01"), ("status", .s "new")],
       some (.validation "Invalid URL format")) := by
    simp [process_mention, requiredFields, dmem, dget, dset, clean_url,
      urlPatternMatch, urlAllowedChar, hct]
  rw [hev]
  exact ⟨rfl, by decide⟩

theorem splitParamsPath_subset (p : List Char) :
    ∀ c ∈ splitParamsPath p, c ∈ p := by
  unfold splitParamsPath
  by_cases h : '/' ∈ p
  · rw [if_pos h]
    intro c hc
    rcases List.mem_append.mp hc with hc | hc
    · exact List.take_subset _ _ hc
    · have h1 : c ∈ (p.reverse.takeWhile (fun c => c ≠ '/')).reverse :=
        (List.takeWhile_prefix _).subset hc
      have h2 : c ∈ p.reverse.takeWhile (fun c => c ≠ '/') :=
        List.mem_reverse.mp h1
      exact List.mem_reverse.mp ((List.takeWhile_prefix _).subset h2)
  · rw [if_neg h]
    intro c hc
    exact (List.takeWhile_prefix _).subset hc

theorem clean_url_ok_chars (url s : String) (h : clean_url url = .ok s) :
    ∀ c ∈ s.data, c ≠ '?' ∧ c ≠ '#' := by
  unfold clean_url at h
  by_cases hm : urlPatternMatch url = true
  · rw [if_pos hm] at h
    have hs : s = urlparse_scheme url ++ "://" ++ urlparse_netloc url ++ urlparse_path url := by
      cases h; rfl
    subst hs
    intro c hc
    rw [String.data_append, String.data_append, String.data_append] at hc
    rcases List.mem_append.mp hc with hc | hc
    · rcases List.mem_append.mp hc with hc | hc
      · rcases List.mem_append.mp hc with hc | hc
        · unfold urlparse_scheme at hc
          by_cases h8 : url.data.take 8 = "https://".data
          · rw [if_pos h8] at hc
            exact (by decide : ∀ x ∈ ("https" : String).data, x ≠ '?' ∧ x ≠ '#') c hc
          · rw [if_neg h8] at hc
            exact (by decide : ∀ x ∈ ("http" : String).data, x ≠ '?' ∧ x ≠ '#') c hc
        · exact (by decide : ∀ x ∈ ("://" : String).data, x ≠ '?' ∧ x ≠ '#') c hc
      · unfold urlparse_netloc at hc
        have hnl := List.mem_takeWhile_imp hc
        simp only [Bool.not_eq_true', netlocEnd] at hnl
        simp only [Bool.or_eq_false_iff, decide_eq_false_iff_not] at hnl
        exact ⟨hnl.1.2, hnl.2⟩
    · unfold urlparse_path at hc
      have hp : c ∈ urlRawPath url := splitParamsPath_subset _ c hc
      have hq := List.mem_takeWhile_imp hp
      simp only [Bool.not_eq_true', Bool.or_eq_false_iff, decide_eq_false_iff_not] at hq
      exact hq
  · rw [if_neg hm] at h
    cases h

/-- C6 (amended): `clean_url` fails with `ValidationError("Invalid URL format")`
exactly when the URL pattern (`http`/`https` scheme followed by at least
one character of the matcher's class, anchored only at the start) does not
match — in particular a bare `"http://"` fails — and on success it returns
the URL rebuilt as `scheme://netloc/path`, with the query string and
fragment discarded; the authority may be empty, since the class contains
`/`. -/
theorem clean_url_spec :
    (∀ url : String,
      ((∃ e, clean_url url = .error e) ↔ urlPatternMatch url = false) ∧
      (∀ e, clean_url url = .error e → e = "Invalid URL format") ∧
      (∀ s, clean_url url = .ok s →
        s = urlparse_scheme url ++ "://" ++ urlparse_netloc url ++ urlparse_path url ∧
        ∀ c ∈ s.data, c ≠ '?' ∧ c ≠ '#')) ∧
    clean_url "http://" = .error "Invalid URL format" := by
  refine ⟨?_, by decide⟩
  intro url
  by_cases hm : urlPatternMatch url = true
  · refine ⟨⟨?_, ?_⟩, ?_, ?_⟩
    · rintro ⟨e, he⟩
      unfold clean_url at he
      rw [if_pos hm] at he
      cases he
    · intro hf
      rw [hm] at hf
      cases hf
    · intro e he
      unfold clean_url at he
      rw [if_pos hm] at he
      cases he
    · intro s hs
      refine ⟨?_, clean_url_ok_chars url s hs⟩
      unfold clean_url at hs
      rw [if_pos hm] at hs
      cases hs
      rfl
  · have hm' : urlPatternMatch url = false := by
      cases h : urlPatternMatch url
      · rfl
      · exact absurd h hm
    refine ⟨⟨?_, ?_⟩, ?_, ?_⟩
    · intro _
      exact hm'
    · intro _
      exact ⟨"Invalid URL format", by unfold clean_url; rw [if_neg hm]⟩
    · intro e he
      unfold clean_url at he
      rw [if_neg hm] at he
      cases he
      rfl
    · intro s hs
      unfold clean_url at hs
      rw [if_neg hm] at hs
      cases hs

/-- Witness for `clean_url_spec` at a URL with query and fragment. -/
theorem clean_url_spec_witness :
    ("http://example.com/a/b" : String) =
      urlparse_scheme "http://example.com/a/b?q=1#frag" ++ "://" ++
      urlparse_netloc "http://example.com/a/b?q=1#frag" ++
      urlparse_path "http://example.com/a/b?q=1#frag" ∧
    ∀ c ∈ ("http://example.com/a/b" : String).data, c ≠ '?' ∧ c ≠ '#' :=
  (clean_url_spec.1 "http://example.com/a/b?q=1#frag").2.2
    "http://example.com/a/b" (by decide)

/-- C9: `validate_date` is a string pass-through — whatever it accepts it
returns unchanged — it accepts exactly the strings whose `Z`-normalized
form parses as an ISO-8601 date-time, and on every parse failure the
raised `ValidationError` message is `"Invalid date format"`; in particular
`"invalid-date"` is rejected with that message and a `Z`-suffixed date-time
is accepted unchanged. -/
theorem validate_date_spec :
    (∀ s : String,
      (∀ t, validate_date s = .ok t → t = s) ∧
      (∀ e, validate_date s = .error e → e = "Invalid date format") ∧
      (pyFromIsoformatOk (pyReplaceZ s) = true → validate_date s = .ok s) ∧
      (pyFromIsoformatOk (pyReplaceZ s) = false →
        validate_date s = .error "Invalid date format")) ∧
    validate_date "invalid-date" = .error "Invalid date format" ∧
    validate_date "2024-01-01T12:00:00Z" = .ok "2024-01-01T12:00:00Z" := by
  refine ⟨?_, by decide, by decide⟩
  intro s
  unfold validate_date
  by_cases hp : pyFromIsoformatOk (pyReplaceZ s) = true
  · rw [if_pos hp]
    refine ⟨?_, ?_, fun _ => rfl, ?_⟩
    · intro t ht
      cases ht
      rfl
    · intro e he
      cases he
    · intro hf
      rw [hp] at hf
      cases hf
  · rw [if_neg hp]
    refine ⟨?_, ?_, ?_, fun _ => rfl⟩
    · intro t ht
      cases ht
    · intro e he
      cases he
      rfl
    · intro ht
      exact absurd ht hp

/-- Witness for `validate_date_spec` at an accepted offset date-time. -/
theorem validate_date_spec_witness :
    validate_date "2024-03-15T10:30:00+05:00" = .ok "2024-03-15T10:30:00+05:00" :=
  (validate_date_spec.1 "2024-03-15T10:30:00+05:00").2.2.1 (by decide)

theorem joinStrings_cons₂ (x y : String) (ys : List String) :
    joinStrings (x :: y :: ys) = x ++ " " ++ joinStrings (y :: ys) := rfl

theorem clean_url_error_msg (u e : String) (h : clean_url u = .error e) :
    e = "Invalid URL format" := by
  unfold clean_url at h
  by_cases hm : urlPatternMatch u = true
  · rw [if_pos hm] at h
    cases h
  · rw [if_neg hm] at h
    cases h
    rfl

theorem validate_date_error_msg (d e : String) (h : validate_date d = .error e) :
    e = "Invalid date format" := by
  unfold validate_date at h
  by_cases hp : pyFromIsoformatOk (pyReplaceZ d) = true
  · rw [if_pos hp] at h
    cases h
  · rw [if_neg hp] at h
    cases h
    rfl

/-- C7: on success, the output's `hashtags` are exactly the `#(\w+)`
tokens of the cleaned text (captured without the marker, case preserved,
in order of occurrence, duplicates kept) and `mentioned_users` the `@(\w+)`
tokens by the same rule. -/
theorem process_mention_tokens (now : String) (mention out : Dict)
    (h : process_mention now mention = (out, none)) :
    ∃ t, dget mention "text" = some (.s t) ∧
      dget out "hashtags" = some (.l (extract_hashtags (clean_text t))) ∧
      dget out "mentioned_users" = some (.l (extract_mentions (clean_text t))) := by
  simp only [process_mention] at h
  repeat' (split at h)
  all_goals simp at h
  rename_i xf hfind xt t ht xu u hu xc u2 hc xd dt hd xv dt2 hv xa au ha
  subst h
  refine ⟨t, ht, ?_, ?_⟩
  · simp [dget_dset_ne, dget_dset_same]
  · simp [dget_dset_ne, dget_dset_same]

/-- Witness for `process_mention_tokens` on the repository's test record. -/
theorem process_mention_tokens_witness :
    ∃ t, dget [("id", Val.s "mention123"),
        ("text", Val.s "Check out this #awesome product! @johndoe"),
        ("date", Val.s "2024-01-01T12:00:00Z"), ("source", Val.s "twitter"),
        ("url", Val.s "https://twitter.com/user/status/123"),
        ("author", Val.s "janedoe"), ("status", Val.s "new")] "text" = some (.s t) ∧
      dget (process_mention "2024-02-02T00:00:00+00:00"
        [("id", Val.s "mention123"),
         ("text", Val.s "Check out this #awesome product! @johndoe"),
         ("date", Val.s "2024-01-01T12:00:00Z"), ("source", Val.s "twitter"),
         ("url", Val.s "https://twitter.com/user/status/123"),
         ("author", Val.s "janedoe"), ("status", Val.s "new")]).1 "hashtags" =
        some (.l (extract_hashtags (clean_text t))) ∧
      dget (process_mention "2024-02-02T00:00:00+00:00"
        [("id", Val.s "mention123"),
         ("text", Val.s "Check out this #awesome product! @johndoe"),
         ("date", Val.s "2024-01-01T12:00:00Z"), ("source", Val.s "twitter"),
         ("url", Val.s "https://twitter.com/user/status/123"),
         ("author", Val.s "janedoe"), ("status", Val.s "new")]).1 "mentioned_users" =
        some (.l (extract_mentions (clean_text t))) :=
  process_mention_tokens "2024-02-02T00:00:00+00:00" _ _
    (Prod.ext_iff.mpr ⟨rfl, by decide⟩)

/-- On success, every enriched field of the output is determined by the
input's `text` and `author` fields. -/
theorem process_mention_success_fields (now : String) (mention out : Dict)
    (h : process_mention now mention = (out, none)) :
    ∃ t au, dget mention "text" = some (.s t) ∧
      dget mention "author" = some (.s au) ∧
      dget out "hashtags" = some (.l (extract_hashtags (clean_text t))) ∧
      dget out "mentioned_users" = some (.l (extract_mentions (clean_text t))) ∧
      dget out "search_text" = some (.s (generate_search_text (clean_text t) au
        (extract_hashtags (clean_text t)) (extract_mentions (clean_text t)))) ∧
      dget out "text" = some (.s (clean_text t)) ∧
      dget out "sentiment" = some (.s "neutral") ∧
      dget out "language" = some (.s "unknown") ∧
      dget out "processed_at" = some (.s now) := by
  simp only [process_mention] at h
  repeat' (split at h)
  all_goals simp at h
  rename_i xf hfind xt t ht xu u hu xc u2 hc xd dt hd xv dt2 hv xa au ha
  subst h
  have ha' : dget mention "author" = some (.s au) := by
    simp [dget_dset_ne] at ha
    exact ha
  refine ⟨t, au, ht, ha', ?_, ?_, ?_, ?_, ?_, ?_, ?_⟩ <;>
    simp [dget_dset_ne, dget_dset_same]

theorem gst_substr (text author : String) (hs us : List String) :
    strSubstr text.toLower (generate_search_text text author hs us) ∧
    strSubstr author.toLower (generate_search_text text author hs us) := by
  constructor
  · refine ⟨[], ' ' :: (joinStrings [author.toLower, joinStrings hs, joinStrings us]).data, ?_⟩
    rw [generate_search_text, joinStrings_cons₂, String.data_append, String.data_append]
    simp
  · refine ⟨text.toLower.data ++ [' '],
      ' ' :: (joinStrings [joinStrings hs, joinStrings us]).data, ?_⟩
    rw [generate_search_text, joinStrings_cons₂, String.data_append, String.data_append]
    rw [show joinStrings [author.toLower, joinStrings hs, joinStrings us] =
      author.toLower ++ " " ++ joinStrings [joinStrings hs, joinStrings us] from rfl]
    rw [String.data_append, String.data_append]
    simp

theorem gst_mem_hashtags (text author : String) (hs us : List String) (c : Char)
    (hc : c ∈ (joinStrings hs).data) :
    c ∈ (generate_search_text text author hs us).data := by
  rw [generate_search_text, joinStrings_cons₂, String.data_append, String.data_append]
  rw [show joinStrings [author.toLower, joinStrings hs, joinStrings us] =
    author.toLower ++ " " ++ joinStrings [joinStrings hs, joinStrings us] from rfl]
  rw [String.data_append, String.data_append]
  rw [show joinStrings [joinStrings hs, joinStrings us] =
    joinStrings hs ++ " " ++ joinStrings us from rfl]
  rw [String.data_append, String.data_append]
  simp [hc]

/-- C4 (amended): on success, `search_text` equals the space-join of the
lowercased cleaned text, the lowercased author, the space-joined hashtags
and the space-joined mentioned users (hashtag/user case preserved), and
hence contains `text.lower()` and `author.lower()` as substrings. -/
theorem process_mention_search_text (now : String) (mention out : Dict)
    (h : process_mention now mention = (out, none)) :
    ∃ t au, dget mention "text" = some (.s t) ∧
      dget mention "author" = some (.s au) ∧
      dget out "search_text" = some (.s (generate_search_text (clean_text t) au
        (extract_hashtags (clean_text t)) (extract_mentions (clean_text t)))) ∧
      strSubstr (clean_text t).toLower (generate_search_text (clean_text t) au
        (extract_hashtags (clean_text t)) (extract_mentions (clean_text t))) ∧
      strSubstr au.toLower (generate_search_text (clean_text t) au
        (extract_hashtags (clean_text t)) (extract_mentions (clean_text t))) := by
  obtain ⟨t, au, ht, ha, _, _, hst, _⟩ := process_mention_success_fields now mention out h
  exact ⟨t, au, ht, ha, hst, (gst_substr _ _ _ _).1, (gst_substr _ _ _ _).2⟩

/-- Witness for `process_mention_search_text` on a concrete record. -/
theorem process_mention_search_text_witness :
    ∃ t au, dget [("text", Val.s "Great #deal today"), ("source", Val.s "news site"),
        ("url", Val.s "http://news.example.com/x"), ("author", Val.s "Bob"),
        ("date", Val.s "2024-05-05"), ("status", Val.s "new")] "text" = some (.s t) ∧
      dget [("text", Val.s "Great #deal today"), ("source", Val.s "news site"),
        ("url", Val.s "http://news.example.com/x"), ("author", Val.s "Bob"),
        ("date", Val.s "2024-05-05"), ("status", Val.s "new")] "author" = some (.s au) ∧
      dget (process_mention "2024-06-06T00:00:00+00:00"
        [("text", Val.s "Great #deal today"), ("source", Val.s "news site"),
         ("url", Val.s "http://news.example.com/x"), ("author", Val.s "Bob"),
         ("date", Val.s "2024-05-05"), ("status", Val.s "new")]).1 "search_text" =
        some (.s (generate_search_text (clean_text t) au
          (extract_hashtags (clean_text t)) (extract_mentions (clean_text t)))) ∧
      strSubstr (clean_text t).toLower (generate_search_text (clean_text t) au
        (extract_hashtags (clean_text t)) (extract_mentions (clean_text t))) ∧
      strSubstr au.toLower (generate_search_text (clean_text t) au
        (extract_hashtags (clean_text t)) (extract_mentions (clean_text t))) :=
  process_mention_search_text "2024-06-06T00:00:00+00:00" _ _
    (Prod.ext_iff.mpr ⟨rfl, by decide⟩)

/-- C4 counterexample: `search_text` is not a lowercase string — hashtag
case is preserved, so a record whose text carries `#Awesome` yields a
`search_text` containing the uppercase `'A'`. -/
theorem process_mention_search_text_uppercase :
    (process_mention "T" [("text", Val.s "Check #Awesome"), ("source", Val.s "twitter"),
      ("url", Val.s "https://t.co/x"), ("author", Val.s "jane"),
      ("date", Val.s "2024-01-01"), ("status", Val.s "new")]).2 = none ∧
    ∃ v, dget (process_mention "T" [("text", Val.s "Check #Awesome"),
        ("source", Val.s "twitter"), ("url", Val.s "https://t.co/x"),
        ("author", Val.s "jane"), ("date", Val.s "2024-01-01"),
        ("status", Val.s "new")]).1 "search_text" = some (.s v) ∧
      ∃ c ∈ v.data, c.isUpper = true := by
  have hev : process_mention "T" [("text", Val.s "Check #Awesome"),
      ("source", Val.s "twitter"), ("url", Val.s "https://t.co/x"),
      ("author", Val.s "jane"), ("date", Val.s "2024-01-01"),
      ("status", Val.s "new")] =
      ((process_mention "T" [("text", Val.s "Check #Awesome"),
        ("source", Val.s "twitter"), ("url", Val.s "https://t.co/x"),
        ("author", Val.s "jane"), ("date", Val.s "2024-01-01"),
        ("status", Val.s "new")]).1, none) :=
    Prod.ext_iff.mpr ⟨rfl, by decide⟩
  obtain ⟨t, au, ht, ha, _, _, hst, _⟩ :=
    process_mention_success_fields "T" _ _ hev
  have ht' : t = "Check #Awesome" := by
    simp [dget] at ht
    exact ht.symm
  subst ht'
  have hhs : extract_hashtags (clean_text "Check #Awesome") = ["Awesome"] := by
    have hct : clean_text "Check #Awesome" = "Check #Awesome" := by
      simp [clean_text, words, pyIsSpace, joinWords]
    rw [hct]
    simp [extract_hashtags, findTokens, isWordChar]
  refine ⟨by decide, _, hst, 'A', ?_, by decide⟩
  apply gst_mem_hashtags
  rw [hhs]
  decide

/-- C3 (amended): `process_mention` returns a fully populated record or
raises a `ValidationError`, but it mutates the record in place: a
missing-field failure leaves the input unchanged, a URL failure leaves
`text` already whitespace-collapsed, and a date failure additionally
leaves `url` already rewritten. -/
theorem process_mention_failure_state (now : String) (mention out : Dict) (msg : String)
    (h : process_mention now mention = (out, some (.validation msg))) :
    (out = mention ∧ ∃ f, msg = "Missing required field: " ++ f) ∨
    (msg = "Invalid URL format" ∧ ∃ t, dget mention "text" = some (.s t) ∧
      out = dset mention "text" (.s (clean_text t))) ∨
    (msg = "Invalid date format" ∧ ∃ t u u2, dget mention "text" = some (.s t) ∧
      dget mention "url" = some (.s u) ∧ clean_url u = .ok u2 ∧
      out = dset (dset mention "text" (.s (clean_text t))) "url" (.s u2)) := by
  simp only [process_mention] at h
  repeat' (split at h)
  all_goals simp at h
  · rename_i x0 f hfind
    obtain ⟨h1, h2⟩ := h
    exact Or.inl ⟨h1.symm, f, h2.symm⟩
  · rename_i x3 hfind x2 t ht x1 u hu x0 e herr
    obtain ⟨h1, h2⟩ := h
    exact Or.inr (Or.inl ⟨h2.symm.trans (clean_url_error_msg u e herr), t, ht, h1.symm⟩)
  · rename_i x5 hfind x4 t ht x3 u hu x2 u2 hcu x1 dt hd x0 e herr
    obtain ⟨h1, h2⟩ := h
    have hu' : dget mention "url" = some (.s u) := by
      simp [dget_dset_ne] at hu
      exact hu
    exact Or.inr (Or.inr ⟨h2.symm.trans (validate_date_error_msg dt e herr),
      t, u, u2, ht, hu', hcu, h1.symm⟩)

/-- Witness for `process_mention_failure_state` at a URL failure. -/
theorem process_mention_failure_state_witness :
    ([("text", Val.s "a b"), ("source", Val.s "s"), ("url", Val.s "nope"),
      ("author", Val.s "x"), ("date", Val.s "2024-01-01"), ("status", Val.s "new")] =
      [("text", Val.s "a  b"), ("source", Val.s "s"), ("url", Val.s "nope"),
       ("author", Val.s "x"), ("date", Val.s "2024-01-01"), ("status", Val.s "new")] ∧
      ∃ f, "Invalid URL format" = "Missing required field: " ++ f) ∨
    ("Invalid URL format" = "Invalid URL format" ∧
      ∃ t, dget [("text", Val.s "a  b"), ("source", Val.s "s"), ("url", Val.s "nope"),
        ("author", Val.s "x"), ("date", Val.s "2024-01-01"), ("status", Val.s "new")]
          "text" = some (.s t) ∧
        [("text", Val.s "a b"), ("source", Val.s "s"), ("url", Val.s "nope"),
         ("author", Val.s "x"), ("date", Val.s "2024-01-01"), ("status", Val.s "new")] =
        dset [("text", Val.s "a  b"), ("source", Val.s "s"), ("url", Val.s "nope"),
          ("author", Val.s "x"), ("date", Val.s "2024-01-01"), ("status", Val.s "new")]
          "text" (.s (clean_text t))) ∨
    ("Invalid URL format" = "Invalid date format" ∧
      ∃ t u u2, dget [("text", Val.s "a  b"), ("source", Val.s "s"), ("url", Val.s "nope"),
        ("author", Val.s "x"), ("date", Val.s "2024-01-01"), ("status", Val.s "new")]
          "text" = some (.s t) ∧
        dget [("text", Val.s "a  b"), ("source", Val.s "s"), ("url", Val.s "nope"),
          ("author", Val.s "x"), ("date", Val.s "2024-01-01"), ("status", Val.s "new")]
          "url" = some (.s u) ∧ clean_url u = .ok u2 ∧
        [("text", Val.s "a b"), ("source", Val.s "s"), ("url", Val.s "nope"),
         ("author", Val.s "x"), ("date", Val.s "2024-01-01"), ("status", Val.s "new")] =
        dset (dset [("text", Val.s "a  b"), ("source", Val.s "s"), ("url", Val.s "nope"),
          ("author", Val.s "x"), ("date", Val.s "2024-01-01"), ("status", Val.s "new")]
          "text" (.s (clean_text t))) "url" (.s u2)) :=
  process_mention_failure_state "T"
    [("text", Val.s "a  b"), ("source", Val.s "s"), ("url", Val.s "nope"),
     ("author", Val.s "x"), ("date", Val.s "2024-01-01"), ("status", Val.s "new")]
    [("text", Val.s "a b"), ("source", Val.s "s"), ("url", Val.s "nope"),
     ("author", Val.s "x"), ("date", Val.s "2024-01-01"), ("status", Val.s "new")]
    "Invalid URL format"
    (by
      have hct : clean_text "a  b" = "a b" := by
        simp [clean_text, words, pyIsSpace, joinWords]
      simp [process_mention, requiredFields, dmem, dget, dset, clean_url,
        urlPatternMatch, urlAllowedChar, hct])

theorem find?_first {α : Type} (p : α → Bool) (l : List α) (a : α)
    (ha : a ∈ l) (hpa : p a = true) :
    ∃ b pre post, l.find? p = some b ∧ p b = true ∧ l = pre ++ b :: post ∧
      ∀ x ∈ pre, p x = false := by
  induction l with
  | nil => cases ha
  | cons x xs ih =>
    cases hx : p x with
    | true =>
      exact ⟨x, [], xs, by rw [List.find?_cons_of_pos _ hx], hx, rfl, by simp⟩
    | false =>
      rcases List.mem_cons.mp ha with rfl | ha'
      · rw [hx] at hpa
        cases hpa
      · obtain ⟨b, pre, post, h1, h2, h3, h4⟩ := ih ha'
        refine ⟨b, x :: pre, post, ?_, h2, by rw [h3, List.cons_append], ?_⟩
        · rw [List.find?_cons_of_neg _ (by simp [hx]), h1]
        · intro y hy
          rcases List.mem_cons.mp hy with rfl | hy'
          · exact hx
          · exact h4 y hy'

/-- C8: a record missing one of the six required fields fails with
`ValidationError("Missing required field: <field>")` naming the first
missing field in the fixed order text, source, url, author, date, status;
`id` is never checked for presence, so no `ValidationError` ever names
`id` as missing. -/
theorem process_mention_required_fields :
    (∀ now mention f, f ∈ requiredFields → dmem mention f = false →
      ∃ g pre post,
        process_mention now mention =
          (mention, some (.validation ("Missing required field: " ++ g))) ∧
        dmem mention g = false ∧
        requiredFields = pre ++ g :: post ∧
        ∀ f' ∈ pre, dmem mention f' = true) ∧
    (∀ now mention e, (process_mention now mention).2 = some (.validation e) →
      e ≠ "Missing required field: id") := by
  constructor
  · intro now mention f hf hm
    obtain ⟨g, pre, post, h1, h2, h3, h4⟩ :=
      find?_first (fun g => !dmem mention g) requiredFields f hf (by simp [hm])
    refine ⟨g, pre, post, ?_, by simpa using h2, h3, ?_⟩
    · simp only [process_mention, h1]
    · intro f' hf'
      simpa using h4 f' hf'
  · intro now mention e h
    simp only [process_mention] at h
    repeat' (split at h)
    all_goals simp at h
    · rename_i x0 f hfind
      have hf : f ∈ requiredFields := List.mem_of_find?_eq_some hfind
      have hf' : f = "text" ∨ f = "source" ∨ f = "url" ∨ f = "author" ∨
          f = "date" ∨ f = "status" := by
        simpa [requiredFields] using hf
      rcases hf' with rfl | rfl | rfl | rfl | rfl | rfl <;> (rw [← h]; decide)
    · rename_i x3 hfind x2 t ht x1 u hu x0 e' herr
      rw [← h, clean_url_error_msg u e' herr]
      decide
    · rename_i x5 hfind x4 t ht x3 u hu x2 u2 hcu x1 dt hd x0 e' herr
      rw [← h, validate_date_error_msg dt e' herr]
      decide

/-- Witness for `process_mention_required_fields` on a record lacking
`date`. -/
theorem process_mention_required_fields_witness :
    ∃ g pre post,
      process_mention "T" [("id", Val.s "mention123"), ("text", Val.s "Test mention"),
        ("source", Val.s "twitter"), ("url", Val.s "https://x.com/a"),
        ("author", Val.s "a"), ("status", Val.s "new")] =
        ([("id", Val.s "mention123"), ("text", Val.s "Test mention"),
          ("source", Val.s "twitter"), ("url", Val.s "https://x.com/a"),
          ("author", Val.s "a"), ("status", Val.s "new")],
         some (.validation ("Missing required field: " ++ g))) ∧
      dmem [("id", Val.s "mention123"), ("text", Val.s "Test mention"),
        ("source", Val.s "twitter"), ("url", Val.s "https://x.com/a"),
        ("author", Val.s "a"), ("status", Val.s "new")] g = false ∧
      requiredFields = pre ++ g :: post ∧
      ∀ f' ∈ pre, dmem [("id", Val.s "mention123"), ("text", Val.s "Test mention"),
        ("source", Val.s "twitter"), ("url", Val.s "https://x.com/a"),
        ("author", Val.s "a"), ("status", Val.s "new")] f' = true :=
  process_mention_required_fields.1 "T"
    [("id", Val.s "mention123"), ("text", Val.s "Test mention"),
     ("source", Val.s "twitter"), ("url", Val.s "https://x.com/a"),
     ("author", Val.s "a"), ("status", Val.s "new")] "date" (by decide) (by decide)

end MentionMind
